import Mathlib

/-!
Verification development for the gunbot-quant simulation and indicator
engine.  Prices, capital and indicator values are modelled as rationals;
the floating-point not-a-number marker is modelled as `none` in
`Option ℚ`, with arithmetic that propagates `none` exactly as IEEE NaN
propagates through additions, subtractions and multiplications.
Timestamps are modelled as integers.
-/

set_option maxHeartbeats 1000000

/-- NaN-propagating addition: mirrors float addition where any NaN operand
yields NaN. -/
def optAdd : Option ℚ → Option ℚ → Option ℚ
  | some a, some b => some (a + b)
  | _, _ => none

/-- NaN-propagating subtraction. -/
def optSub : Option ℚ → Option ℚ → Option ℚ
  | some a, some b => some (a - b)
  | _, _ => none

/-- Models numpy sum over a float slice: NaN as soon as one entry is NaN. -/
def nanSum (l : List (Option ℚ)) : Option ℚ :=
  l.foldl optAdd (some 0)

/-- Inner loop of `_sma_numba` (core/indicators.py): the running sum is
updated by `current_sum += arr[i] - arr[i-w]` and each output is
`current_sum / w`.  The first list argument is the input array starting at
index `i - w`, the second starting at index `i`. -/
def smaGo (w : ℚ) : List (Option ℚ) → List (Option ℚ) → Option ℚ → List (Option ℚ)
  | o :: os, x :: xs, cs =>
      let cs2 := optSub (optAdd cs x) o
      (cs2.map (fun v => v / w)) :: smaGo w os xs cs2
  | _, _, _ => []

/-- Model of `_sma_numba` (core/indicators.py lines 63-67): the first
`w - 1` outputs are NaN, output `w - 1` is `sum(arr[:w]) / w`, and later
outputs use the incremental running-sum update.  The out-of-contract case
`w = 0` or `w > len(arr)` (where the source would index out of bounds) is
modelled as an all-NaN array. -/
def sma_numba (arr : List (Option ℚ)) (w : ℕ) : List (Option ℚ) :=
  if w = 0 ∨ arr.length < w then List.replicate arr.length none
  else
    let cs0 := nanSum (arr.take w)
    List.replicate (w - 1) none ++ (cs0.map (fun v => v / (w : ℚ))) :: smaGo (w : ℚ) arr (arr.drop w) cs0

/-- Inner loop of `_ema_numba`: `out[i] = (arr[i] - out[i-1]) * m + out[i-1]`. -/
def emaGo (m : ℚ) : List (Option ℚ) → Option ℚ → List (Option ℚ)
  | [], _ => []
  | x :: xs, prev =>
      let cur := optAdd ((optSub x prev).map (fun d => d * m)) prev
      cur :: emaGo m xs cur

/-- Model of `_ema_numba` (core/indicators.py lines 102-106): the first
`w - 1` outputs are NaN, output `w - 1` is the mean of the first `w`
inputs, and later outputs use the recursive smoothing with multiplier
`2 / (w + 1)`.  The out-of-contract case is modelled as all NaN. -/
def ema_numba (arr : List (Option ℚ)) (w : ℕ) : List (Option ℚ) :=
  if w = 0 ∨ arr.length < w then List.replicate arr.length none
  else
    let e0 := (nanSum (arr.take w)).map (fun v => v / (w : ℚ))
    List.replicate (w - 1) none ++ e0 :: emaGo (2 / ((w : ℚ) + 1)) (arr.drop w) e0

/-- Value of the profit factor: either the float infinity produced by
`np.inf` or a finite rational. -/
inductive ExtQ where
  | posInf : ExtQ
  | fin : ℚ → ExtQ
deriving DecidableEq, Repr

/-- Model of the profit-factor expression of `calculate_stats`
(core/backtest_engine.py lines 12-15): wins are trades with
`pnl_value > 0`, losses are trades with `pnl_value <= 0`, and
`profit_factor = wins.sum / abs(losses.sum)` when `abs(losses.sum) > 0`,
otherwise `np.inf`. -/
def profit_factor (pnls : List ℚ) : ExtQ :=
  let lossSum := (pnls.filter (fun p => decide (p ≤ 0))).sum
  if 0 < |lossSum| then
    ExtQ.fin ((pnls.filter (fun p => decide (0 < p))).sum / |lossSum|)
  else ExtQ.posInf

/-- Banker-style rounding of a rational to the nearest integer, halves to
even, modelling Python round on values that are exactly representable. -/
def roundHalfEven (q : ℚ) : ℤ :=
  let f := ⌊q⌋
  let r := q - (f : ℚ)
  if r < 1 / 2 then f
  else if 1 / 2 < r then f + 1
  else if f % 2 = 0 then f else f + 1

/-- Model of Python round(x, 2). -/
def pyRound2 (q : ℚ) : ℚ :=
  ((roundHalfEven (q * 100) : ℤ) : ℚ) / 100

/-- round(x, 2) applied to the possibly infinite profit factor: Python
round leaves infinity unchanged. -/
def roundExt : ExtQ → ExtQ
  | ExtQ.posInf => ExtQ.posInf
  | ExtQ.fin q => ExtQ.fin (pyRound2 q)

/-- Exact symbolic value of an annualized Sharpe or Sortino ratio.  The
source computes `sqrt(365) * mean / std`, an irrational real; the value is
fully determined by the mean of the returns and the sample variance whose
square root is the denominator, so the constructor `ann mean variance`
records exactly those rationals.  `zero` is the literal 0 stored in the
degenerate branches, `nanQ` the NaN produced when fewer than two returns
exist (pandas std of fewer than two samples is NaN, and NaN != 0 is true
in Python, so the NaN propagates into the stored ratio). -/
inductive RatioVal where
  | zero : RatioVal
  | nanQ : RatioVal
  | ann : ℚ → ℚ → RatioVal
deriving DecidableEq, Repr

/-- Arithmetic mean of a list of rationals (mean of an empty list never
reaches the fields where it is used in the claims). -/
def listMean (l : List ℚ) : ℚ := l.sum / (l.length : ℚ)

/-- Sample variance with denominator `n - 1`, as used by pandas std. -/
def sampleVar (l : List ℚ) : ℚ :=
  (l.map (fun x => (x - listMean l) ^ 2)).sum / ((l.length : ℚ) - 1)

/-- Sharpe field of the stats record: `sqrt(365) * mean / std` when the
sample std of the returns is a nonzero number, the literal 0 when the std
is exactly zero, NaN when fewer than two returns exist. -/
def sharpeVal (returns : List ℚ) : RatioVal :=
  if returns.length < 2 then RatioVal.nanQ
  else if sampleVar returns = 0 then RatioVal.zero
  else RatioVal.ann (listMean returns) (sampleVar returns)

/-- Sortino field: mean of all returns over the sample std of the strictly
negative returns, 0 unless more than one negative return exists with
nonzero std. -/
def sortinoVal (returns : List ℚ) : RatioVal :=
  let neg := returns.filter (fun r => decide (r < 0))
  if neg.length ≤ 1 then RatioVal.zero
  else if sampleVar neg = 0 then RatioVal.zero
  else RatioVal.ann (listMean returns) (sampleVar neg)

/-- One closed trade as consumed by `calculate_stats`: the pnl value, the
pnl percentage and the exit reason column. -/
structure StatTrade where
  pnlValue : ℚ
  pnlPercent : ℚ
  exitReason : String
deriving DecidableEq, Repr

/-- Tail of the running maximum, carrying the maximum seen so far. -/
def cummaxGo (m : ℚ) : List ℚ → List ℚ
  | [] => []
  | y :: ys => max m y :: cummaxGo (max m y) ys

/-- Running maximum of an equity curve (pandas cummax). -/
def cummax : List ℚ → List ℚ
  | [] => []
  | x :: xs => x :: cummaxGo x xs

/-- Percentage change of consecutive equity points with the leading NaN
dropped (pandas pct_change().dropna()); the source divides by the previous
value, well defined on the positive equity values the engine produces. -/
def pctChange (l : List ℚ) : List ℚ :=
  (l.zip l.tail).map (fun p => p.2 / p.1 - 1)

/-- Exit-reason counts (value_counts().to_dict()): one entry per distinct
reason with its multiplicity; the source orders entries by descending
count, modelled here in first-appearance order, which carries the same
dictionary content. -/
def exitReasonCounts (reasons : List String) : List (String × ℕ) :=
  reasons.dedup.map (fun s => (s, reasons.count s))

/-- The fixed statistics record returned by `calculate_stats`.  String
formatting of capital amounts is dropped; the underlying numbers are kept. -/
structure StatsRecord where
  startPeriod : Option ℤ
  endPeriod : Option ℤ
  durationDays : ℤ
  initialCapital : ℚ
  finalCapital : ℚ
  totalReturnPct : ℚ
  buyHoldPct : ℚ
  maxDrawdownPct : ℚ
  sharpe : RatioVal
  sortino : RatioVal
  totalTrades : ℕ
  winRatePct : ℚ
  profitFactor : ExtQ
  avgTradePnlPct : ℚ
  avgWinPnlPct : ℚ
  avgLossPnlPct : ℚ
  exitReasonCounts : List (String × ℕ)
deriving DecidableEq, Repr

/-- Model of `calculate_stats` (core/backtest_engine.py lines 7-28).
Dates are day numbers; `durationDays` is `end - start` when both dates are
present, 0 otherwise, following the truthiness test of the source.  The
benchmark return is passed as a number, as every caller does. -/
def calculate_stats (trades : List StatTrade) (equityCurve : List ℚ)
    (initialCapital : ℚ) (startDate endDate : Option ℤ) (bhReturn : ℚ) :
    StatsRecord :=
  let duration : ℤ :=
    match startDate, endDate with
    | some s, some e => e - s
    | _, _ => 0
  if trades = [] ∨ equityCurve = [] then
    { startPeriod := startDate, endPeriod := endDate, durationDays := duration,
      initialCapital := initialCapital, finalCapital := initialCapital,
      totalReturnPct := 0, buyHoldPct := pyRound2 bhReturn,
      maxDrawdownPct := 0, sharpe := RatioVal.zero, sortino := RatioVal.zero,
      totalTrades := 0, winRatePct := 0, profitFactor := ExtQ.fin 0,
      avgTradePnlPct := 0, avgWinPnlPct := 0, avgLossPnlPct := 0,
      exitReasonCounts := [] }
  else
    let equity := equityCurve.getLastD 0
    let totalReturnPct := (equity - initialCapital) / initialCapital * 100
    let wins := trades.filter (fun t => decide (0 < t.pnlValue))
    let losses := trades.filter (fun t => decide (t.pnlValue ≤ 0))
    let winRate := ((wins.length : ℚ) / (trades.length : ℚ)) * 100
    let pf := profit_factor (trades.map StatTrade.pnlValue)
    let peak := cummax equityCurve
    let drawdown := (equityCurve.zip peak).map (fun p => (p.1 - p.2) / p.2)
    let maxDrawdownPct := |(drawdown.min?.getD 0) * 100|
    let returns := pctChange equityCurve
    { startPeriod := startDate, endPeriod := endDate, durationDays := duration,
      initialCapital := initialCapital, finalCapital := equity,
      totalReturnPct := pyRound2 totalReturnPct, buyHoldPct := pyRound2 bhReturn,
      maxDrawdownPct := pyRound2 maxDrawdownPct,
      sharpe := sharpeVal returns, sortino := sortinoVal returns,
      totalTrades := trades.length, winRatePct := pyRound2 winRate,
      profitFactor := roundExt pf,
      avgTradePnlPct := pyRound2 (listMean (trades.map StatTrade.pnlPercent)),
      avgWinPnlPct := if wins = [] then 0 else pyRound2 (listMean (wins.map StatTrade.pnlPercent)),
      avgLossPnlPct := if losses = [] then 0 else pyRound2 (listMean (losses.map StatTrade.pnlPercent)),
      exitReasonCounts := exitReasonCounts (trades.map StatTrade.exitReason) }

/-- Open-position state of the generic directional engine
(`run_generic_backtest`, core/backtest_engine.py line 109): the position
dictionary always carries these keys. -/
structure Pos where
  inPos : Bool
  entryPrice : ℚ
  stopPrice : ℚ
  qty : ℚ
  value : ℚ
  entryTime : Option ℤ
deriving DecidableEq, Repr

/-- The flat position the engine resets to. -/
def emptyPos : Pos :=
  { inPos := false, entryPrice := 0, stopPrice := 0, qty := 0, value := 0,
    entryTime := none }

/-- A closed trade recorded by the generic engine: the copied position
fields plus the exit fields added by `trade_log.update`. -/
structure Trade where
  entryPrice : ℚ
  stopPrice : ℚ
  qty : ℚ
  value : ℚ
  entryTime : Option ℤ
  exitTime : ℤ
  exitPrice : ℚ
  pnlPercent : ℚ
  pnlValue : ℚ
  exitReason : String
deriving DecidableEq, Repr

/-- Capability interface of a directional strategy as consumed by
`run_generic_backtest`: take-profit price (None when absent), trailing
stop update, signal-based exit, entry signal, initial stop price. -/
structure GenStrategy where
  getTakeProfitPrice : ℕ → Pos → Option ℚ
  updateTrailingStop : ℕ → ℚ → Pos → Pos
  getExitSignal : ℕ → Pos → Option String
  getEntrySignal : ℕ → Bool
  getStopLossPrice : ℕ → ℚ → ℚ

/-- Python truthiness of the take-profit guard
`if tp_price and price >= tp_price`: a missing price and the float 0.0 are
both falsy, so the take-profit branch fires only for a present, nonzero
take-profit price that the close has reached. -/
def tpCheck (tp : Option ℚ) (price : ℚ) : Bool :=
  match tp with
  | none => false
  | some t => decide (t ≠ 0) && decide (t ≤ price)

/-- Python truthiness of an optional exit-reason string: None and the
empty string are falsy. -/
def truthyStr : Option String → Bool
  | none => false
  | some s => decide (s ≠ "")

/-- Exit resolution of the generic engine while in position
(core/backtest_engine.py lines 117-127): take-profit first, else trailing
stop update followed by the stop-breach test, else the strategy exit
signal.  Returns the exit-reason variable and the position as updated by
the trailing-stop call. -/
def decideExit (strat : GenStrategy) (i : ℕ) (price : ℚ) (pos : Pos) :
    Option String × Pos :=
  if tpCheck (strat.getTakeProfitPrice i pos) price then (some "Take Profit", pos)
  else
    let pos2 := strat.updateTrailingStop i price pos
    if price ≤ pos2.stopPrice then (some "Stop Loss", pos2)
    else (strat.getExitSignal i pos2, pos2)

/-- Mutable loop state of `run_generic_backtest`. -/
structure EngineState where
  cash : ℚ
  position : Pos
  trades : List Trade
  equity : List ℚ
deriving Repr

/-- One candle of the generic directional loop
(core/backtest_engine.py lines 115-148): exit handling while in position,
then entry evaluation while flat (possibly on the same candle), then the
equity point. -/
def stepGeneric (strat : GenStrategy) (close : List ℚ) (ts : List ℤ)
    (st : EngineState) (i : ℕ) : EngineState :=
  let price := close.getD i 0
  let afterExit : ℚ × Pos × List Trade :=
    if st.position.inPos then
      let ex := decideExit strat i price st.position
      if truthyStr ex.1 then
        let pos2 := ex.2
        let proceeds := pos2.qty * price
        let pnlVal := proceeds - pos2.value
        let tr : Trade :=
          { entryPrice := pos2.entryPrice, stopPrice := pos2.stopPrice,
            qty := pos2.qty, value := pos2.value, entryTime := pos2.entryTime,
            exitTime := ts.getD i 0, exitPrice := price,
            pnlPercent := if 0 < pos2.value then pnlVal / pos2.value * 100 else 0,
            pnlValue := pnlVal, exitReason := ex.1.getD "" }
        (proceeds, emptyPos, st.trades ++ [tr])
      else (st.cash, ex.2, st.trades)
    else (st.cash, st.position, st.trades)
  let cash1 := afterExit.1
  let pos1 := afterExit.2.1
  let trades1 := afterExit.2.2
  let afterEntry : ℚ × Pos :=
    if pos1.inPos = false ∧ strat.getEntrySignal i = true ∧ 0 < cash1 then
      let stopP := strat.getStopLossPrice i price
      if stopP < price then
        (0, { inPos := true, entryPrice := price, stopPrice := stopP,
              qty := cash1 / price, value := cash1,
              entryTime := some (ts.getD i 0) })
      else (cash1, pos1)
    else (cash1, pos1)
  let cash2 := afterEntry.1
  let pos2 := afterEntry.2
  let current := if pos2.inPos then pos2.qty * price else cash2
  { cash := cash2, position := pos2, trades := trades1,
    equity := st.equity ++ [current] }

/-- Candle table handed to the engine: timestamps plus OHLC columns (the
open column is not consulted by the modelled code paths). -/
structure Df where
  ts : List ℤ
  high : List ℚ
  low : List ℚ
  close : List ℚ
deriving Repr

/-- Engine configuration slice used by the modelled functions.  The
warmup period is optional because the source reads it through
`config.get` with default 200. -/
structure EngineConfig where
  backtestStartDate : ℤ
  technicalWarmupPeriod : Option ℕ
  initialCapital : ℚ
deriving Repr

/-- numpy searchsorted with side left on an ascending timestamp column:
the number of leading timestamps strictly before the requested start. -/
def searchsorted_left (l : List ℤ) (x : ℤ) : ℕ :=
  (l.takeWhile (fun t => decide (t < x))).length

/-- Model of `_get_start_index` (core/backtest_engine.py lines 30-39):
the effective start index is the larger of the warmup period and the
requested start position; when it reaches the end of the data the source
prints a console warning and returns None, modelled as `none`. -/
def get_start_index (df : Df) (cfg : EngineConfig) : Option ℕ :=
  let requestedStartIdx := searchsorted_left df.ts cfg.backtestStartDate
  let technicalWarmup := cfg.technicalWarmupPeriod.getD 200
  let startIndex := max technicalWarmup requestedStartIdx
  if df.close.length ≤ startIndex then none else some startIndex

/-- Model of `run_generic_backtest` (core/backtest_engine.py lines
100-167) restricted to the outputs the claims consult: `none` models the
empty result tuple (empty stats dict, empty trades frame, empty series)
the source returns when the start index is unavailable; otherwise the
trades and the equity curve of the candle loop.  The benchmark curve and
the stats call are not consulted by any claim and are omitted here. -/
def run_generic_backtest (df : Df) (strat : GenStrategy) (cfg : EngineConfig) :
    Option (List Trade × List ℚ) :=
  match get_start_index df cfg with
  | none => none
  | some s =>
      if df.close.length ≤ s then none
      else
        let idxs := (List.range (df.close.length - s)).map (fun k => s + k)
        let init : EngineState :=
          { cash := cfg.initialCapital, position := emptyPos, trades := [], equity := [] }
        let fin := idxs.foldl (stepGeneric strat df.close df.ts) init
        some (fin.trades, fin.equity)

/-- Start gate of `run_legacy_backtest` (core/backtest_engine.py lines
46-48): the loop body is abstracted; the gate returns the empty result
exactly as the generic mode does. -/
def run_legacy_gate (df : Df) (cfg : EngineConfig)
    (body : ℕ → List Trade × List ℚ) : Option (List Trade × List ℚ) :=
  match get_start_index df cfg with
  | none => none
  | some s => if df.close.length ≤ s then none else some (body s)

/-- Start gate of `run_continuous_backtest` (core/backtest_engine.py
lines 171-173): only the None test guards the loop. -/
def run_continuous_gate (df : Df) (cfg : EngineConfig)
    (body : ℕ → List Trade × List ℚ) : Option (List Trade × List ℚ) :=
  match get_start_index df cfg with
  | none => none
  | some s => some (body s)

/-- Insertion into a Python dict keyed by price level: assigning an
existing key changes nothing, a new key is appended. -/
def dictInsert (l : List ℚ) (x : ℚ) : List ℚ :=
  if x ∈ l then l else l ++ [x]

/-- Insertion step of an insertion sort driven by a boolean order. -/
def insertBy (le : ℚ → ℚ → Bool) (x : ℚ) : List ℚ → List ℚ
  | [] => [x]
  | y :: ys => if le x y then x :: y :: ys else y :: insertBy le x ys

/-- Insertion sort by a boolean order, modelling Python sorted. -/
def sortByBool (le : ℚ → ℚ → Bool) (l : List ℚ) : List ℚ :=
  l.foldr (insertBy le) []

/-- Ascending sort of price levels. -/
def sortAsc (l : List ℚ) : List ℚ := sortByBool (fun a b => decide (a ≤ b)) l

/-- Descending sort of price levels (sorted with reverse True). -/
def sortDesc (l : List ℚ) : List ℚ := sortByBool (fun a b => decide (b ≤ a)) l

/-- One realized grid trade (strategy_library.py lines 100-104); the
entry-time column holds the literal string N/A in the source and is
omitted here. -/
structure GridTrade where
  exitTime : ℤ
  exitPrice : ℚ
  entryPrice : ℚ
  pnlValue : ℚ
  pnlPercent : ℚ
  exitReason : String
deriving DecidableEq, Repr

/-- Instance state of `GridStrategy` during a continuous backtest: the
balances, the derived grid parameters and the two pending-order dicts. -/
structure GridState where
  cash : ℚ
  baseAssetQty : ℚ
  gridSpacingFactor : ℚ
  quoteQtyPerGrid : ℚ
  maxGrids : ℕ
  buyOrders : List ℚ
  sellOrders : List ℚ
  trades : List GridTrade
  equityCurve : List (ℤ × ℚ)
deriving DecidableEq, Repr

/-- Parameters of the grid strategy (params dict): the INITIAL_CAPITAL
entry, GQ_GRID_MAX_GRIDS and GQ_GRID_GRID_SPACING_PCT. -/
structure GridParams where
  initialCapital : ℚ
  maxGrids : ℕ
  gridSpacingPct : ℚ
deriving Repr

/-- Ladder construction loop of `init_continuous_backtest`: insert the
current price as a dict key, then move one step (division or
multiplication by the spacing factor). -/
def buildLevels (step : ℚ → ℚ) : ℕ → ℚ → List ℚ → List ℚ
  | 0, _, acc => acc
  | n + 1, cp, acc => buildLevels step n (step cp) (dictInsert acc cp)

/-- Model of `GridStrategy.init_continuous_backtest`
(strategies/strategy_library.py lines 23-65): half the capital is
converted to base asset at the close one candle before the effective
start, the two ladders are laid out around that price, and the first
equity point is recorded at that earlier candle. -/
def grid_init_continuous_backtest (p : GridParams) (initialCapital : ℚ)
    (startIndex : ℕ) (data : Df) : GridState :=
  let startPrice := data.close.getD (startIndex - 1) 0
  let baseAssetQty := (initialCapital / 2) / startPrice
  let cash := initialCapital / 2
  let gridSpacingFactor := 1 + p.gridSpacingPct / 100
  let quoteQtyPerGrid := p.initialCapital / (p.maxGrids : ℚ)
  let numBuySideGrids := p.maxGrids / 2
  let numSellSideGrids := p.maxGrids - numBuySideGrids
  let buyOrders := buildLevels (fun cp => cp / gridSpacingFactor)
    numBuySideGrids (startPrice / gridSpacingFactor) []
  let sellOrders := buildLevels (fun cp => cp * gridSpacingFactor)
    numSellSideGrids (startPrice * gridSpacingFactor) []
  { cash := cash, baseAssetQty := baseAssetQty,
    gridSpacingFactor := gridSpacingFactor, quoteQtyPerGrid := quoteQtyPerGrid,
    maxGrids := p.maxGrids, buyOrders := buyOrders, sellOrders := sellOrders,
    trades := [],
    equityCurve := [(data.ts.getD (startIndex - 1) 0, cash + baseAssetQty * startPrice)] }

/-- Body of the buy-fill loop of `GridStrategy.process_candle`
(strategy_library.py lines 72-84): skip when the cash slice is missing;
otherwise convert the slice to base asset, delete the buy level, add the
matching sell level one spacing factor above, and replenish the low end
of the buy ladder when any buy level remains. -/
def gridBuyFill (st : GridState) (level : ℚ) : GridState :=
  if st.cash < st.quoteQtyPerGrid then st
  else
    let baseQtyToBuy := st.quoteQtyPerGrid / level
    let bo := st.buyOrders.erase level
    let so := dictInsert st.sellOrders (level * st.gridSpacingFactor)
    let bo2 :=
      if bo.isEmpty then bo
      else dictInsert bo ((bo.min?.getD 0) / st.gridSpacingFactor)
    { st with cash := st.cash - st.quoteQtyPerGrid,
              baseAssetQty := st.baseAssetQty + baseQtyToBuy,
              buyOrders := bo2, sellOrders := so }

/-- Body of the sell-fill loop of `GridStrategy.process_candle`
(strategy_library.py lines 88-111): skip when the base quantity is
missing; otherwise realize the paired trade, delete the sell level, add
the matching buy level one spacing factor below, and replenish the high
end of the sell ladder when any sell level remains. -/
def gridSellFill (tsI : ℤ) (st : GridState) (level : ℚ) : GridState :=
  let buyPrice := level / st.gridSpacingFactor
  let baseQtyToSell := st.quoteQtyPerGrid / buyPrice
  if st.baseAssetQty < baseQtyToSell then st
  else
    let pnlValue := (level - buyPrice) * baseQtyToSell
    let pnlPct := pnlValue / st.quoteQtyPerGrid * 100
    let tr : GridTrade :=
      { exitTime := tsI, exitPrice := level, entryPrice := buyPrice,
        pnlValue := pnlValue, pnlPercent := pnlPct,
        exitReason := "Grid Pair Closed" }
    let so := st.sellOrders.erase level
    let bo := dictInsert st.buyOrders (level / st.gridSpacingFactor)
    let so2 :=
      if so.isEmpty then so
      else dictInsert so ((so.max?.getD 0) * st.gridSpacingFactor)
    { st with cash := st.cash + level * baseQtyToSell,
              baseAssetQty := st.baseAssetQty - baseQtyToSell,
              trades := st.trades ++ [tr],
              buyOrders := bo, sellOrders := so2 }

/-- Model of `GridStrategy.process_candle` (strategy_library.py lines
67-114): buy levels at or above the candle low fill in descending order,
then sell levels at or below the candle high fill in ascending order
against the updated sell dict, then the equity point is appended. -/
def grid_process_candle (data : Df) (st : GridState) (i : ℕ) : GridState :=
  let candleLow := data.low.getD i 0
  let candleHigh := data.high.getD i 0
  let filledBuys := sortDesc (st.buyOrders.filter (fun level => decide (candleLow ≤ level)))
  let st1 := filledBuys.foldl gridBuyFill st
  let filledSells := sortAsc (st1.sellOrders.filter (fun level => decide (level ≤ candleHigh)))
  let st2 := filledSells.foldl (gridSellFill (data.ts.getD i 0)) st1
  let currentEquity := st2.cash + st2.baseAssetQty * (data.close.getD i 0)
  { st2 with equityCurve := st2.equityCurve ++ [(data.ts.getD i 0, currentEquity)] }

/-- Number of pending price levels of both ladders. -/
def levelCount (st : GridState) : ℕ :=
  st.buyOrders.length + st.sellOrders.length

/-- Per-tuple loop state of `_score_params_numba`
(strategies/dynamic_momentum_optimizer.py lines 8-36): accumulated gross
profit and gross loss, the position flag, the entry and the stop. -/
structure ScoreState where
  gp : ℚ
  gl : ℚ
  inPos : Bool
  entry : ℚ
  stop : ℚ
deriving DecidableEq, Repr

/-- Initial scorer state `gp, gl, in_pos, entry, stop = 0.0, 0.0, False,
0.0, 0.0`. -/
def scoreInit : ScoreState :=
  { gp := 0, gl := 0, inPos := false, entry := 0, stop := 0 }

/-- One index of the simplified crossover simulation inside
`_score_params_numba`: NaN reads skip the index; a golden cross opens the
position with an ATR stop; while in position the trailing stop may ratchet
up, and a stop breach or death cross realizes the fractional return into
gross profit or gross loss. -/
def scoreStep (multK trailTriggerMult : ℚ) (close : List ℚ)
    (fma sma atr : List (Option ℚ)) (st : ScoreState) (i : ℕ) : ScoreState :=
  match fma.getD i none, sma.getD i none, fma.getD (i - 1) none,
        sma.getD (i - 1) none, atr.getD i none with
  | some f1, some s1, some f0, some s0, some a =>
      let gold := f0 < s0 ∧ s1 < f1
      let death := s0 < f0 ∧ f1 < s1
      let price := close.getD i 0
      if st.inPos = false ∧ gold then
        { st with inPos := true, entry := price, stop := price - a * multK }
      else if st.inPos then
        let st1 :=
          if a * multK * trailTriggerMult < price - st.entry then
            let newStop := price - a * multK
            if st.stop < newStop then { st with stop := newStop } else st
          else st
        if price < st1.stop ∨ death then
          let pnl := (price - st1.entry) / st1.entry
          if 0 < pnl then { st1 with gp := st1.gp + pnl, inPos := false }
          else { st1 with gl := st1.gl - pnl, inPos := false }
        else st1
      else st
  | _, _, _, _, _ => st

/-- The scorer loop over `range(start + 1, end)` for one parameter tuple. -/
def scoreRun (multK trailTriggerMult : ℚ) (close : List ℚ)
    (fma sma atr : List (Option ℚ)) (start endI : ℕ) : ScoreState :=
  ((List.range (endI - (start + 1))).map (fun k => start + 1 + k)).foldl
    (scoreStep multK trailTriggerMult close fma sma atr) scoreInit

/-- Fitness score of one parameter tuple, the final line of
`_score_params_numba`: `gp / gl` when `gl` is positive, else `gp * 1000`
when `gp` is positive, else 0. -/
def score_params_numba (multK trailTriggerMult : ℚ) (close : List ℚ)
    (fma sma atr : List (Option ℚ)) (start endI : ℕ) : ℚ :=
  let st := scoreRun multK trailTriggerMult close fma sma atr start endI
  if 0 < st.gl then st.gp / st.gl
  else if 0 < st.gp then st.gp * 1000 else 0

/-- Position dictionary of the legacy engine (`run_legacy_backtest` line
51): entry, stop, quantity, value, the chosen parameter tuple
(fast period, slow period, ATR period, ATR multiplier) and the entry time. -/
structure LegacyPos where
  inPos : Bool
  entry : ℚ
  stop : ℚ
  qty : ℚ
  value : ℚ
  params : Option (ℕ × ℕ × ℕ × ℚ)
  entryTime : Option ℤ
deriving DecidableEq, Repr

/-- Model of `DynamicMomentumOptimizer.update_trailing_stop`
(strategies/dynamic_momentum_optimizer.py lines 127-144): with a chosen
parameter tuple and a present, long-enough, non-NaN ATR array, the stop is
raised to `price - atr * mult` when the unrealized gain exceeds
`atr * mult * TRAIL_TRIGGER_MULT` and the candidate exceeds the current
stop; in every other case the position is returned unchanged.  The
indicator table is a map from ATR period to the optional ATR array. -/
def dmo_update_trailing_stop (trailTriggerMult : ℚ)
    (atrArrays : ℕ → Option (List (Option ℚ))) (i : ℕ) (price : ℚ)
    (position : LegacyPos) : LegacyPos :=
  match position.params with
  | none => position
  | some pr =>
      let atrLen := pr.2.2.1
      let mult := pr.2.2.2
      match atrArrays atrLen with
      | none => position
      | some arr =>
          if i < arr.length then
            match arr.getD i none with
            | none => position
            | some atrVal =>
                if atrVal * mult * trailTriggerMult < price - position.entry then
                  let newStop := price - atrVal * mult
                  if position.stop < newStop then { position with stop := newStop }
                  else position
                else position
          else position

/-- Forward-fill lookup on one equity curve: the value attached to the
greatest timestamp at or before `t`, if any.  This is the per-column
semantics of `pd.concat(axis=1).ffill()` over the sorted union index. -/
def lastValAt (c : List (ℤ × ℚ)) (t : ℤ) : Option ℚ :=
  ((c.filter (fun p => decide (p.1 ≤ t))).getLast?).map Prod.snd

/-- Insertion step for sorting the union of timestamps. -/
def insertTs (x : ℤ) : List ℤ → List ℤ
  | [] => [x]
  | y :: ys => if x ≤ y then x :: y :: ys else y :: insertTs x ys

/-- Ascending sort of timestamps. -/
def sortTs (l : List ℤ) : List ℤ := l.foldr insertTs []

/-- Sorted union of the timestamps of all curves, the row index produced
by the outer join of `pd.concat(axis=1)`. -/
def unionTs (curves : List (List (ℤ × ℚ))) : List ℤ :=
  sortTs ((curves.foldl (fun acc c => acc ++ c.map Prod.fst) []).dedup)

/-- Model of `_aggregate_curves` (core/engine_runner.py lines 104-112):
subtract the per-test capital from every curve, outer-join on the union of
timestamps, forward-fill, replace the remaining leading gaps by 0, sum the
rows and add the total initial capital back. -/
def aggregate_curves (seriesList : List (List (ℤ × ℚ)))
    (initialCapitalPerTest totalInitialCapital : ℚ) : List (ℤ × ℚ) :=
  if seriesList.isEmpty then []
  else
    (unionTs seriesList).map (fun t =>
      (t, (seriesList.map (fun c =>
            ((lastValAt c t).map (fun v => v - initialCapitalPerTest)).getD 0)).sum
          + totalInitialCapital))

/-- A strategy whose take-profit price is the float 0.0: Python treats it
as falsy in the take-profit guard. -/
def cStratC1 : GenStrategy :=
  { getTakeProfitPrice := fun _ _ => some 0,
    updateTrailingStop := fun _ _ p => p,
    getExitSignal := fun _ _ => none,
    getEntrySignal := fun _ => false,
    getStopLossPrice := fun _ p => p }

/-- An open position with stop 10 held at entry 4. -/
def cPosC1 : Pos :=
  { inPos := true, entryPrice := 4, stopPrice := 10, qty := 1, value := 4,
    entryTime := some 0 }

/-- Engine state holding `cPosC1` with no cash and no history. -/
def cStC1 : EngineState :=
  { cash := 0, position := cPosC1, trades := [], equity := [] }

/-- A strategy with a reachable take-profit price 3. -/
def wStratC1 : GenStrategy :=
  { getTakeProfitPrice := fun _ _ => some 3,
    updateTrailingStop := fun _ _ p => p,
    getExitSignal := fun _ _ => none,
    getEntrySignal := fun _ => false,
    getStopLossPrice := fun _ p => p }

/-- An open position with stop 1 held at entry 2. -/
def wPosC1 : Pos :=
  { inPos := true, entryPrice := 2, stopPrice := 1, qty := 1, value := 2,
    entryTime := some 0 }

/-- Engine state holding `wPosC1`. -/
def wStC1 : EngineState :=
  { cash := 0, position := wPosC1, trades := [], equity := [] }

/-- A strategy that never signals. -/
def trivialStrat : GenStrategy :=
  { getTakeProfitPrice := fun _ _ => none,
    updateTrailingStop := fun _ _ p => p,
    getExitSignal := fun _ _ => none,
    getEntrySignal := fun _ => false,
    getStopLossPrice := fun _ p => p }

/-- A one-candle table: far too short for the default warmup of 200. -/
def cDfA : Df := { ts := [0], high := [1], low := [1], close := [1] }

/-- Config requesting start 0 with the default warmup. -/
def cCfgA : EngineConfig :=
  { backtestStartDate := 0, technicalWarmupPeriod := none, initialCapital := 1000 }

/-- A five-candle table, still shorter than the explicit warmup of 300. -/
def cDfB : Df :=
  { ts := [0, 1, 2, 3, 4], high := [1, 1, 1, 1, 1], low := [1, 1, 1, 1, 1],
    close := [1, 1, 1, 1, 1] }

/-- Config with warmup 300: requested versus available sizes differ from
the `cDfA`/`cCfgA` case. -/
def cCfgB : EngineConfig :=
  { backtestStartDate := 0, technicalWarmupPeriod := some 300, initialCapital := 500 }

/-- A three-candle table long enough for warmup 1. -/
def cDfC : Df :=
  { ts := [0, 1, 2], high := [1, 1, 1], low := [1, 1, 1], close := [1, 1, 1] }

/-- Config with warmup 1 over `cDfC`: the effective start index is 1. -/
def cCfgC : EngineConfig :=
  { backtestStartDate := 0, technicalWarmupPeriod := some 1, initialCapital := 1000 }

/-- Grid parameters: capital 1000, four grids, one percent spacing. -/
def cGridP : GridParams :=
  { initialCapital := 1000, maxGrids := 4, gridSpacingPct := 1 }

/-- Two candles around price 1: the second candle dips to the first buy
level without reaching any sell level. -/
def cGridDf : Df :=
  { ts := [0, 1], high := [1, 199/200], low := [1, 99/100], close := [1, 124/125] }

/-- Grid state right after initialization on `cGridDf`. -/
def cGridSt : GridState := grid_init_continuous_backtest cGridP 1000 1 cGridDf

/-- Candle table for the grid initialization claim: one candle at price 2. -/
def cDfC10 : Df := { ts := [5], high := [2], low := [2], close := [2] }

/-- First per-symbol equity curve: starts at 1000, ends at 1100 on day 4. -/
def cCurveA : List (ℤ × ℚ) :=
  [(0, 1000), (1, 1020), (2, 1040), (3, 1070), (4, 1100)]

/-- Second per-symbol equity curve: starts at 1000, ends at 900 one day
earlier. -/
def cCurveB : List (ℤ × ℚ) :=
  [(0, 1000), (1, 980), (2, 950), (3, 900)]

/-- Fast-line samples forcing a golden cross at index 1 and a death cross
at index 2. -/
def cFmaC6 : List (Option ℚ) := [some 0, some 2, some 0]

/-- Constant slow line. -/
def cSmaC6 : List (Option ℚ) := [some 1, some 1, some 1]

/-- Constant volatility samples. -/
def cAtrC6 : List (Option ℚ) := [some (1/10), some (1/10), some (1/10)]

/-- Close prices giving one winning round trip of fractional return 1/2. -/
def cCloseC6A : List ℚ := [1, 1, 3/2]

/-- Close prices giving one winning round trip of fractional return 1. -/
def cCloseC6B : List ℚ := [1, 1, 2]

/-- Indicator table holding one ATR array under period 14. -/
def cAtrArrays : ℕ → Option (List (Option ℚ)) :=
  fun n => if n = 14 then some [some 1] else none

/-- An open legacy position with parameter tuple (2, 3, 14, 2). -/
def cLegacyPos : LegacyPos :=
  { inPos := true, entry := 10, stop := 9, qty := 1, value := 10,
    params := some (2, 3, 14, 2), entryTime := some 0 }

/-- Sum of a list of nonpositive rationals is nonpositive. -/
theorem list_sum_nonpos : ∀ (l : List ℚ), (∀ x ∈ l, x ≤ 0) → l.sum ≤ 0 := by
  intro l
  induction l with
  | nil => intro _; simp
  | cons a l ih =>
      intro h
      have ha := h a (List.mem_cons_self a l)
      have hl := ih (fun x hx => h x (List.mem_cons_of_mem a hx))
      simp only [List.sum_cons]
      linarith

/-- A list of nonpositive rationals sums to zero exactly when every entry
is zero. -/
theorem list_sum_nonpos_eq_zero_iff :
    ∀ (l : List ℚ), (∀ x ∈ l, x ≤ 0) → (l.sum = 0 ↔ ∀ x ∈ l, x = 0) := by
  intro l
  induction l with
  | nil => intro _; simp
  | cons a l ih =>
      intro h
      have ha := h a (List.mem_cons_self a l)
      have hl := fun x hx => h x (List.mem_cons_of_mem a hx)
      have hsum := list_sum_nonpos l hl
      constructor
      · intro h0
        simp only [List.sum_cons] at h0
        have ha0 : a = 0 := by linarith
        have hl0 : l.sum = 0 := by linarith
        intro x hx
        rcases List.mem_cons.mp hx with hxa | hxl
        · exact hxa ▸ ha0
        · exact ((ih hl).mp hl0) x hxl
      · intro hall
        simp only [List.sum_cons]
        have := (ih hl).mpr (fun x hx => hall x (List.mem_cons_of_mem a hx))
        rw [hall a (List.mem_cons_self a l), this]
        simp

/-- C4 (corrected): the profit factor equals the sum of winning pnl over
the absolute sum of loss-classified pnl whenever some strictly negative
trade exists, and it is plus infinity exactly when no trade has strictly
negative pnl, regardless of whether any winning trade exists. -/
theorem profit_factor_spec (pnls : List ℚ) (hne : pnls ≠ []) :
    (profit_factor pnls = ExtQ.posInf ↔ ∀ p ∈ pnls, 0 ≤ p) ∧
    ((∃ p ∈ pnls, p < 0) →
      profit_factor pnls =
        ExtQ.fin ((pnls.filter (fun p => decide (0 < p))).sum /
          |(pnls.filter (fun p => decide (p ≤ 0))).sum|)) := by
  have hfil : ∀ x ∈ pnls.filter (fun p => decide (p ≤ 0)), x ≤ 0 := by
    intro x hx
    have := List.of_mem_filter hx
    exact of_decide_eq_true this
  have hiff := list_sum_nonpos_eq_zero_iff _ hfil
  have hzero : ((pnls.filter (fun p => decide (p ≤ 0))).sum = 0 ↔ ∀ p ∈ pnls, 0 ≤ p) := by
    rw [hiff]
    constructor
    · intro hall p hp
      by_contra hneg
      push_neg at hneg
      have hmem : p ∈ pnls.filter (fun p => decide (p ≤ 0)) :=
        List.mem_filter.mpr ⟨hp, decide_eq_true (le_of_lt hneg)⟩
      have := hall p hmem
      exact absurd this (ne_of_lt hneg)
    · intro hall x hx
      have hx0 := hfil x hx
      have hxmem := (List.mem_filter.mp hx).1
      have := hall x hxmem
      linarith
  constructor
  · constructor
    · intro hpf
      by_contra hneg
      rw [← hzero] at hneg
      have habs : 0 < |(pnls.filter (fun p => decide (p ≤ 0))).sum| := by
        rcases lt_or_gt_of_ne hneg with h | h
        · exact abs_pos.mpr (ne_of_lt h)
        · exact abs_pos.mpr (ne_of_gt h)
      unfold profit_factor at hpf
      rw [if_pos habs] at hpf
      exact ExtQ.noConfusion hpf
    · intro hall
      have h0 : (pnls.filter (fun p => decide (p ≤ 0))).sum = 0 := hzero.mpr hall
      unfold profit_factor
      rw [h0]
      simp
  · intro ⟨p, hp, hneg⟩
    have hsumne : (pnls.filter (fun p => decide (p ≤ 0))).sum ≠ 0 := by
      intro h0
      have := hzero.mp h0 p hp
      linarith
    unfold profit_factor
    rw [if_pos (abs_pos.mpr hsumne)]

/-- C4 counterexample: a single trade with pnl exactly zero yields a
profit factor of plus infinity although not a single winning trade
exists, so plus infinity is not equivalent to the presence of winners
with no losers. -/
theorem profit_factor_counterexample :
    profit_factor [(0 : ℚ)] = ExtQ.posInf ∧
    ([(0 : ℚ)].filter (fun p => decide (0 < p))) = [] := by
  constructor
  · unfold profit_factor
    norm_num
  · rfl

/-- Witness for C4 at the concrete single-loss list. -/
theorem profit_factor_spec_witness :
    profit_factor [(-1 : ℚ)] =
      ExtQ.fin (([(-1 : ℚ)].filter (fun p => decide (0 < p))).sum /
        |([(-1 : ℚ)].filter (fun p => decide (p ≤ 0))).sum|) :=
  (profit_factor_spec [(-1 : ℚ)] (by decide)).2 ⟨-1, by decide, by norm_num⟩

/-- C9 (confirmed): an empty trade list or an empty equity curve makes
`calculate_stats` return the complete default record: zero trades, zero
returns and ratios, empty exit-reason counts and a final capital equal to
the initial capital, rather than an error. -/
theorem calculate_stats_empty (trades : List StatTrade) (equityCurve : List ℚ)
    (initialCapital : ℚ) (startDate endDate : Option ℤ) (bhReturn : ℚ)
    (h : trades = [] ∨ equityCurve = []) :
    calculate_stats trades equityCurve initialCapital startDate endDate bhReturn =
      { startPeriod := startDate, endPeriod := endDate,
        durationDays :=
          match startDate, endDate with
          | some s, some e => e - s
          | _, _ => 0,
        initialCapital := initialCapital, finalCapital := initialCapital,
        totalReturnPct := 0, buyHoldPct := pyRound2 bhReturn,
        maxDrawdownPct := 0, sharpe := RatioVal.zero, sortino := RatioVal.zero,
        totalTrades := 0, winRatePct := 0, profitFactor := ExtQ.fin 0,
        avgTradePnlPct := 0, avgWinPnlPct := 0, avgLossPnlPct := 0,
        exitReasonCounts := [] } := by
  unfold calculate_stats
  rw [if_pos h]

/-- Witness for C9 at concrete empty inputs. -/
theorem calculate_stats_empty_witness :
    (calculate_stats [] [] 1000 (some 0) (some 5) 7).finalCapital = 1000 ∧
    (calculate_stats [] [] 1000 (some 0) (some 5) 7).totalTrades = 0 := by
  rw [calculate_stats_empty [] [] 1000 (some 0) (some 5) 7 (Or.inl rfl)]
  exact ⟨rfl, rfl⟩

/-- C10 (confirmed): initializing the grid backtest with capital C at
effective start index s converts half the capital to base asset at the
close of candle s - 1, so cash is C / 2, the base quantity is
(C / 2) / close[s - 1], and the single equity point equals exactly C and
is timestamped at candle s - 1. -/
theorem grid_init_spec (p : GridParams) (initialCapital : ℚ) (startIndex : ℕ)
    (data : Df) (hC : 0 < initialCapital) (hs : 1 ≤ startIndex)
    (hp : 0 < data.close.getD (startIndex - 1) 0) :
    (grid_init_continuous_backtest p initialCapital startIndex data).cash =
      initialCapital / 2 ∧
    (grid_init_continuous_backtest p initialCapital startIndex data).baseAssetQty =
      (initialCapital / 2) / data.close.getD (startIndex - 1) 0 ∧
    (grid_init_continuous_backtest p initialCapital startIndex data).equityCurve =
      [(data.ts.getD (startIndex - 1) 0, initialCapital)] := by
  refine ⟨rfl, rfl, ?_⟩
  unfold grid_init_continuous_backtest
  have hne : data.close.getD (startIndex - 1) 0 ≠ 0 := ne_of_gt hp
  have : initialCapital / 2 / data.close.getD (startIndex - 1) 0 *
      data.close.getD (startIndex - 1) 0 = initialCapital / 2 :=
    div_mul_cancel₀ _ hne
  simp only [this]
  norm_num

/-- Witness for C10 on a concrete one-candle table. -/
theorem grid_init_spec_witness :
    (grid_init_continuous_backtest cGridP 1000 1 cDfC10).equityCurve =
      [(cDfC10.ts.getD 0 0, 1000)] :=
  (grid_init_spec cGridP 1000 1 cDfC10 (by norm_num) (by norm_num) (by norm_num [cDfC10])).2.2

/-- The legacy trailing-stop update never lowers the stop, whatever the
inputs. -/
theorem dmo_stop_le (trailTriggerMult : ℚ)
    (atrArrays : ℕ → Option (List (Option ℚ))) (i : ℕ) (price : ℚ)
    (position : LegacyPos) :
    position.stop ≤
      (dmo_update_trailing_stop trailTriggerMult atrArrays i price position).stop := by
  obtain ⟨inP, entry, stp, qty, value, params, entryTime⟩ := position
  cases params with
  | none => exact le_refl _
  | some pr =>
      obtain ⟨f, s, atrLen, mult⟩ := pr
      unfold dmo_update_trailing_stop
      dsimp only
      cases har : atrArrays atrLen with
      | none =>
          exact le_refl _
      | some arr =>
          dsimp only
          by_cases hi : i < arr.length
          · rw [if_pos hi]
            cases hv : arr.getD i none with
            | none => exact le_refl _
            | some atrVal =>
                dsimp only
                by_cases hcond : atrVal * mult * trailTriggerMult < price - entry
                · rw [if_pos hcond]
                  by_cases hstop : stp < price - atrVal * mult
                  · rw [if_pos hstop]
                    exact le_of_lt hstop
                  · rw [if_neg hstop]
                · rw [if_neg hcond]
          · rw [if_neg hi]

/-- Folding the legacy trailing-stop update over any candle sequence never
lowers the stop. -/
theorem dmo_stop_fold_le (trailTriggerMult : ℚ)
    (atrArrays : ℕ → Option (List (Option ℚ))) :
    ∀ (steps : List (ℕ × ℚ)) (q : LegacyPos),
      q.stop ≤ (steps.foldl
        (fun r st => dmo_update_trailing_stop trailTriggerMult atrArrays st.1 st.2 r)
        q).stop := by
  intro steps
  induction steps with
  | nil => intro q; exact le_refl _
  | cons hd tl ih =>
      intro q
      exact le_trans (dmo_stop_le trailTriggerMult atrArrays hd.1 hd.2 q) (ih _)

/-- C8 (confirmed): with a chosen parameter tuple and a present, non-NaN
volatility value, the legacy trailing-stop update raises the stop to
price minus atr times multiplier exactly when the unrealized gain exceeds
atr times multiplier times the trigger factor and that candidate is above
the current stop; the stop is never lowered, and across any sequence of
updates it is monotonically non-decreasing. -/
theorem dmo_update_trailing_stop_spec (trailTriggerMult : ℚ)
    (atrArrays : ℕ → Option (List (Option ℚ))) (i : ℕ) (price : ℚ)
    (position : LegacyPos) (f s atrLen : ℕ) (mult : ℚ)
    (arr : List (Option ℚ)) (a : ℚ)
    (hp : position.params = some (f, s, atrLen, mult))
    (ha : atrArrays atrLen = some arr)
    (hi : i < arr.length)
    (hv : arr.getD i none = some a) :
    ((dmo_update_trailing_stop trailTriggerMult atrArrays i price position).stop =
      if a * mult * trailTriggerMult < price - position.entry ∧
         position.stop < price - a * mult
      then price - a * mult else position.stop) ∧
    position.stop ≤
      (dmo_update_trailing_stop trailTriggerMult atrArrays i price position).stop ∧
    (∀ (steps : List (ℕ × ℚ)) (q : LegacyPos),
      q.stop ≤ (steps.foldl
        (fun r st => dmo_update_trailing_stop trailTriggerMult atrArrays st.1 st.2 r)
        q).stop) := by
  refine ⟨?_, dmo_stop_le _ _ _ _ _, dmo_stop_fold_le _ _⟩
  obtain ⟨inP, entry, stop, qty, value, params, entryTime⟩ := position
  simp only at hp
  subst hp
  unfold dmo_update_trailing_stop
  dsimp only
  rw [ha]
  dsimp only
  rw [if_pos hi, hv]
  dsimp only
  split_ifs with h1 h2 h3 <;> first | rfl | tauto

/-- Witness for C8 at a concrete position and volatility table. -/
theorem dmo_update_trailing_stop_spec_witness :
    cLegacyPos.stop ≤
      (dmo_update_trailing_stop 5 cAtrArrays 0 100 cLegacyPos).stop :=
  (dmo_update_trailing_stop_spec 5 cAtrArrays 0 100 cLegacyPos 2 3 14 2
    [some 1] 1 rfl rfl (by decide) rfl).2.1


/-- One scorer step never decreases the accumulated gross profit or gross
loss. -/
theorem scoreStep_gp_gl_le (multK trailTriggerMult : ℚ) (close : List ℚ)
    (fma sma atr : List (Option ℚ)) (st : ScoreState) (i : ℕ) :
    st.gp ≤ (scoreStep multK trailTriggerMult close fma sma atr st i).gp ∧
    st.gl ≤ (scoreStep multK trailTriggerMult close fma sma atr st i).gl := by
  constructor <;>
  · unfold scoreStep
    split
    · dsimp only
      repeat' split
      all_goals try dsimp only
      all_goals first | exact le_refl _ | linarith
    · exact le_refl _

/-- Folding scorer steps never decreases the accumulators. -/
theorem scoreFold_gp_gl_le (multK trailTriggerMult : ℚ) (close : List ℚ)
    (fma sma atr : List (Option ℚ)) :
    ∀ (idxs : List ℕ) (st : ScoreState),
      st.gp ≤ (idxs.foldl (scoreStep multK trailTriggerMult close fma sma atr) st).gp ∧
      st.gl ≤ (idxs.foldl (scoreStep multK trailTriggerMult close fma sma atr) st).gl := by
  intro idxs
  induction idxs with
  | nil => intro st; exact ⟨le_refl _, le_refl _⟩
  | cons hd tl ih =>
      intro st
      have h1 := scoreStep_gp_gl_le multK trailTriggerMult close fma sma atr st hd
      have h2 := ih (scoreStep multK trailTriggerMult close fma sma atr st hd)
      exact ⟨le_trans h1.1 h2.1, le_trans h1.2 h2.2⟩

/-- C6 (corrected): the accumulated gross profit and gross loss are
nonnegative, and the returned fitness score is gross profit over gross
loss when the gross loss is positive, gross profit times 1000 (a
value-dependent quantity, not a constant) when the gross loss is zero and
the gross profit positive, and zero when both are zero. -/
theorem score_params_numba_spec (multK trailTriggerMult : ℚ) (close : List ℚ)
    (fma sma atr : List (Option ℚ)) (start endI : ℕ) :
    0 ≤ (scoreRun multK trailTriggerMult close fma sma atr start endI).gp ∧
    0 ≤ (scoreRun multK trailTriggerMult close fma sma atr start endI).gl ∧
    (0 < (scoreRun multK trailTriggerMult close fma sma atr start endI).gl →
      score_params_numba multK trailTriggerMult close fma sma atr start endI =
        (scoreRun multK trailTriggerMult close fma sma atr start endI).gp /
        (scoreRun multK trailTriggerMult close fma sma atr start endI).gl) ∧
    ((scoreRun multK trailTriggerMult close fma sma atr start endI).gl = 0 →
      0 < (scoreRun multK trailTriggerMult close fma sma atr start endI).gp →
      score_params_numba multK trailTriggerMult close fma sma atr start endI =
        (scoreRun multK trailTriggerMult close fma sma atr start endI).gp * 1000) ∧
    ((scoreRun multK trailTriggerMult close fma sma atr start endI).gl = 0 →
      (scoreRun multK trailTriggerMult close fma sma atr start endI).gp = 0 →
      score_params_numba multK trailTriggerMult close fma sma atr start endI = 0) := by
  have hfold := scoreFold_gp_gl_le multK trailTriggerMult close fma sma atr
    ((List.range (endI - (start + 1))).map (fun k => start + 1 + k)) scoreInit
  refine ⟨hfold.1, hfold.2, ?_, ?_, ?_⟩
  · intro hpos
    unfold score_params_numba
    rw [if_pos hpos]
  · intro h0 hp
    unfold score_params_numba
    rw [if_neg (by rw [h0]; exact lt_irrefl 0), if_pos hp]
  · intro h0 hp
    unfold score_params_numba
    rw [if_neg (by rw [h0]; exact lt_irrefl 0), if_neg (by rw [hp]; exact lt_irrefl 0)]

/-- C6 counterexample: two inputs both with zero gross loss and positive
gross profit produce the different scores 500 and 1000 (gross profit
times 1000), so the score in that branch is not a constant. -/
theorem score_params_numba_counterexample :
    score_params_numba 1 1000 cCloseC6A cFmaC6 cSmaC6 cAtrC6 0 3 = 500 ∧
    score_params_numba 1 1000 cCloseC6B cFmaC6 cSmaC6 cAtrC6 0 3 = 1000 ∧
    (scoreRun 1 1000 cCloseC6A cFmaC6 cSmaC6 cAtrC6 0 3).gl = 0 ∧
    0 < (scoreRun 1 1000 cCloseC6A cFmaC6 cSmaC6 cAtrC6 0 3).gp ∧
    (scoreRun 1 1000 cCloseC6B cFmaC6 cSmaC6 cAtrC6 0 3).gl = 0 ∧
    0 < (scoreRun 1 1000 cCloseC6B cFmaC6 cSmaC6 cAtrC6 0 3).gp ∧
    (500 : ℚ) ≠ 1000 := by
  have hA : scoreRun 1 1000 cCloseC6A cFmaC6 cSmaC6 cAtrC6 0 3 =
      { gp := 1/2, gl := 0, inPos := false, entry := 1, stop := 9/10 } := by
    norm_num [scoreRun, show List.range 2 = [0, 1] from rfl, scoreStep, scoreInit,
      cCloseC6A, cFmaC6, cSmaC6, cAtrC6]
  have hB : scoreRun 1 1000 cCloseC6B cFmaC6 cSmaC6 cAtrC6 0 3 =
      { gp := 1, gl := 0, inPos := false, entry := 1, stop := 9/10 } := by
    norm_num [scoreRun, show List.range 2 = [0, 1] from rfl, scoreStep, scoreInit,
      cCloseC6B, cFmaC6, cSmaC6, cAtrC6]
  refine ⟨?_, ?_, ?_, ?_, ?_, ?_, by norm_num⟩
  · unfold score_params_numba
    rw [hA]
    norm_num
  · unfold score_params_numba
    rw [hB]
    norm_num
  · rw [hA]
  · rw [hA]
    norm_num
  · rw [hB]
  · rw [hB]
    norm_num

/-- Witness for C6 at the first concrete input. -/
theorem score_params_numba_spec_witness :
    score_params_numba 1 1000 cCloseC6A cFmaC6 cSmaC6 cAtrC6 0 3 =
      (scoreRun 1 1000 cCloseC6A cFmaC6 cSmaC6 cAtrC6 0 3).gp * 1000 := by
  have hA : scoreRun 1 1000 cCloseC6A cFmaC6 cSmaC6 cAtrC6 0 3 =
      { gp := 1/2, gl := 0, inPos := false, entry := 1, stop := 9/10 } := by
    norm_num [scoreRun, show List.range 2 = [0, 1] from rfl, scoreStep, scoreInit,
      cCloseC6A, cFmaC6, cSmaC6, cAtrC6]
  exact (score_params_numba_spec 1 1000 cCloseC6A cFmaC6 cSmaC6 cAtrC6 0 3).2.2.2.1
    (by rw [hA]) (by rw [hA]; norm_num)

/-- C5 (confirmed): the portfolio curve holds, at every union timestamp,
the sum over curves of the forward-filled delta from the per-test capital
plus N times the per-test capital; a curve whose timestamps all lie at or
before t contributes its final value (forward-fill past its own end); and
on the two concrete curves ending at 1100 and 900, the second one day
shorter, the final portfolio value is exactly 2000. -/
theorem aggregate_curves_spec (curves : List (List (ℤ × ℚ))) (capPerTest : ℚ)
    (c : List (ℤ × ℚ)) (t : ℤ) (hc : c ∈ curves) (hall : ∀ p ∈ c, p.1 ≤ t) :
    lastValAt c t = (c.getLast?).map Prod.snd ∧
    (∀ u ∈ unionTs curves,
      (u, (curves.map (fun cc =>
          ((lastValAt cc u).map (fun v => v - capPerTest)).getD 0)).sum
        + capPerTest * (curves.length : ℚ)) ∈
        aggregate_curves curves capPerTest (capPerTest * (curves.length : ℚ))) ∧
    (aggregate_curves [cCurveA, cCurveB] 1000 (1000 * 2)).getLastD (0, 0) =
      (4, 2000) := by
  refine ⟨?_, ?_, ?_⟩
  · unfold lastValAt
    rw [List.filter_eq_self.mpr (fun a ha => decide_eq_true (hall a ha))]
  · intro u hu
    have hne2 : curves ≠ [] := List.ne_nil_of_mem hc
    have hf : curves.isEmpty = false := by
      cases curves with
      | nil => exact absurd rfl hne2
      | cons a l => rfl
    unfold aggregate_curves
    rw [hf]
    simp only [Bool.false_eq_true, if_false]
    exact List.mem_map_of_mem _ hu
  · have hu : unionTs [cCurveA, cCurveB] = [0, 1, 2, 3, 4] := by decide
    unfold aggregate_curves
    rw [show ([cCurveA, cCurveB] : List (List (ℤ × ℚ))).isEmpty = false from rfl]
    simp only [Bool.false_eq_true, if_false]
    rw [hu]
    norm_num [lastValAt, cCurveA, cCurveB]

/-- Witness for C5: the first concrete curve, all of whose timestamps lie
at or before day 4, contributes its final value. -/
theorem aggregate_curves_spec_witness :
    lastValAt cCurveA 4 = (cCurveA.getLast?).map Prod.snd :=
  (aggregate_curves_spec [cCurveA, cCurveB] 1000 cCurveA 4
    (List.mem_cons_self _ _) (by decide)).1

/-- Assigning a price-level key to a dict adds at most one entry. -/
theorem dictInsert_length (l : List ℚ) (x : ℚ) :
    (dictInsert l x).length ≤ l.length + 1 := by
  unfold dictInsert
  split
  · exact Nat.le_succ _
  · rw [List.length_append]
    exact le_refl _

/-- C3 (corrected): a buy fill removes the filled buy level, adds the
matching sell level one spacing factor above, and replenishes the low end
of the buy ladder, so it changes the number of pending levels by at most
plus one (the sell fill symmetrically); the fill does not preserve a
max-grid-count bound on the level count. -/
theorem grid_fill_level_count (st : GridState) (level : ℚ) (tsI : ℤ) :
    (level ∈ st.buyOrders →
      levelCount (gridBuyFill st level) ≤ levelCount st + 1) ∧
    (level ∈ st.sellOrders →
      levelCount (gridSellFill tsI st level) ≤ levelCount st + 1) := by
  constructor
  · intro hmem
    unfold gridBuyFill levelCount
    split
    · omega
    · have he : (st.buyOrders.erase level).length + 1 = st.buyOrders.length :=
        List.length_erase_add_one hmem
      have h2 : (dictInsert st.sellOrders (level * st.gridSpacingFactor)).length ≤
          st.sellOrders.length + 1 := dictInsert_length _ _
      dsimp only
      split
      · omega
      · have h1 : (dictInsert (st.buyOrders.erase level)
            ((st.buyOrders.erase level).min?.getD 0 / st.gridSpacingFactor)).length ≤
            (st.buyOrders.erase level).length + 1 := dictInsert_length _ _
        omega
  · intro hmem
    unfold gridSellFill levelCount
    dsimp only
    split
    · omega
    · have he : (st.sellOrders.erase level).length + 1 = st.sellOrders.length :=
        List.length_erase_add_one hmem
      have h2 : (dictInsert st.buyOrders (level / st.gridSpacingFactor)).length ≤
          st.buyOrders.length + 1 := dictInsert_length _ _
      dsimp only
      split
      · omega
      · have h1 : (dictInsert (st.sellOrders.erase level)
            ((st.sellOrders.erase level).max?.getD 0 * st.gridSpacingFactor)).length ≤
            (st.sellOrders.erase level).length + 1 := dictInsert_length _ _
        omega

/-- C3 counterexample: with four grids and one percent spacing, the
initialized ladder holds exactly four levels, and processing one candle
that fills a single buy level leaves five pending levels, exceeding
max-grid-count. -/
theorem grid_level_count_counterexample :
    levelCount cGridSt = 4 ∧ cGridSt.maxGrids = 4 ∧
    levelCount (grid_process_candle cGridDf cGridSt 1) = 5 := by
  have hinit : cGridSt =
      { cash := 500, baseAssetQty := 500, gridSpacingFactor := 101/100,
        quoteQtyPerGrid := 250, maxGrids := 4,
        buyOrders := [100/101, 10000/10201],
        sellOrders := [101/100, 10201/10000], trades := [],
        equityCurve := [(0, 1000)] } := by
    norm_num [cGridSt, grid_init_continuous_backtest, cGridP, cGridDf,
      buildLevels, dictInsert]
  refine ⟨by rw [hinit]; rfl, by rw [hinit], ?_⟩
  rw [hinit]
  norm_num [grid_process_candle, cGridDf, sortDesc, sortAsc, sortByBool,
    insertBy, gridBuyFill, gridSellFill, dictInsert, levelCount]

/-- Witness for C3 at the concrete initialized ladder. -/
theorem grid_fill_level_count_witness :
    levelCount (gridBuyFill cGridSt (100/101)) ≤ levelCount cGridSt + 1 := by
  have hmem : (100/101 : ℚ) ∈ cGridSt.buyOrders := by
    have hinit : cGridSt.buyOrders = [100/101, 10000/10201] := by
      norm_num [cGridSt, grid_init_continuous_backtest, cGridP, cGridDf,
        buildLevels, dictInsert]
    rw [hinit]
    exact List.mem_cons_self _ _
  exact (grid_fill_level_count cGridSt (100/101) 0).1 hmem

/-- C2 (corrected): every simulation mode computes the effective start
index as the larger of the warmup period and the requested start
position; when that index reaches the data length the start-index helper
yields none and all three runner gates return the empty result (no
exception carrying the window sizes is raised by the simulator, and no
truncated simulation is produced). -/
theorem start_index_gate (df : Df) (cfg : EngineConfig) :
    (∀ s, get_start_index df cfg = some s →
      s = max (cfg.technicalWarmupPeriod.getD 200)
          (searchsorted_left df.ts cfg.backtestStartDate) ∧
      s < df.close.length) ∧
    (get_start_index df cfg = none ↔
      df.close.length ≤ max (cfg.technicalWarmupPeriod.getD 200)
        (searchsorted_left df.ts cfg.backtestStartDate)) ∧
    (get_start_index df cfg = none →
      (∀ strat, run_generic_backtest df strat cfg = none) ∧
      (∀ body, run_legacy_gate df cfg body = none) ∧
      (∀ body, run_continuous_gate df cfg body = none)) := by
  refine ⟨?_, ?_, ?_⟩
  · intro s hs
    unfold get_start_index at hs
    by_cases h : df.close.length ≤ max (cfg.technicalWarmupPeriod.getD 200)
        (searchsorted_left df.ts cfg.backtestStartDate)
    · rw [if_pos h] at hs
      exact Option.noConfusion hs
    · rw [if_neg h] at hs
      have := Option.some.inj hs
      omega
  · unfold get_start_index
    by_cases h : df.close.length ≤ max (cfg.technicalWarmupPeriod.getD 200)
        (searchsorted_left df.ts cfg.backtestStartDate)
    · rw [if_pos h]
      simp [h]
    · rw [if_neg h]
      simp [h]
  · intro hnone
    refine ⟨?_, ?_, ?_⟩
    · intro strat
      unfold run_generic_backtest
      rw [hnone]
    · intro body
      unfold run_legacy_gate
      rw [hnone]
    · intro body
      unfold run_continuous_gate
      rw [hnone]

/-- C2 counterexample: two insufficient inputs with different data
lengths and different warmup requirements produce the identical empty
result, so the caller receives no error and no requested-versus-available
window sizes; the legacy and continuous gates behave the same way. -/
theorem start_index_gate_counterexample :
    run_generic_backtest cDfA trivialStrat cCfgA = none ∧
    run_generic_backtest cDfB trivialStrat cCfgB = none ∧
    run_generic_backtest cDfA trivialStrat cCfgA =
      run_generic_backtest cDfB trivialStrat cCfgB ∧
    cDfA.close.length = 1 ∧ cDfB.close.length = 5 ∧
    cCfgA.technicalWarmupPeriod.getD 200 = 200 ∧
    cCfgB.technicalWarmupPeriod.getD 200 = 300 ∧
    run_legacy_gate cDfA cCfgA (fun _ => ([], [])) = none ∧
    run_continuous_gate cDfA cCfgA (fun _ => ([], [])) = none := by
  exact ⟨rfl, rfl, rfl, rfl, rfl, rfl, rfl, rfl, rfl⟩

/-- Witness for C2: the gate returns the empty result on the short table
and returns the max-of-warmup-and-request index on a sufficient table. -/
theorem start_index_gate_witness :
    run_generic_backtest cDfA trivialStrat cCfgA = none ∧
    (1 = max (cCfgC.technicalWarmupPeriod.getD 200)
        (searchsorted_left cDfC.ts cCfgC.backtestStartDate) ∧
      1 < cDfC.close.length) :=
  ⟨((start_index_gate cDfA cCfgA).2.2 rfl).1 trivialStrat,
   (start_index_gate cDfC cCfgC).1 1 rfl⟩

/-- When the take-profit branch fires, the exit resolution returns the
take-profit reason immediately, without the trailing-stop update. -/
theorem decideExit_tp_eq (strat : GenStrategy) (i : ℕ) (price : ℚ) (pos : Pos)
    (h : tpCheck (strat.getTakeProfitPrice i pos) price = true) :
    decideExit strat i price pos = (some "Take Profit", pos) := by
  unfold decideExit
  rw [h]
  rfl

/-- When the take-profit guard is falsy and the close breaches the
updated stop, the exit resolution returns the stop-loss reason. -/
theorem decideExit_sl_eq (strat : GenStrategy) (i : ℕ) (price : ℚ) (pos : Pos)
    (h1 : tpCheck (strat.getTakeProfitPrice i pos) price = false)
    (h2 : price ≤ (strat.updateTrailingStop i price pos).stopPrice) :
    decideExit strat i price pos =
      (some "Stop Loss", strat.updateTrailingStop i price pos) := by
  unfold decideExit
  rw [h1]
  simp only [Bool.false_eq_true, if_false]
  rw [if_pos h2]

/-- When neither protective exit fires, the exit resolution returns the
strategy exit signal on the trailing-stop-updated position. -/
theorem decideExit_sig_eq (strat : GenStrategy) (i : ℕ) (price : ℚ) (pos : Pos)
    (h1 : tpCheck (strat.getTakeProfitPrice i pos) price = false)
    (h2 : ¬ price ≤ (strat.updateTrailingStop i price pos).stopPrice) :
    decideExit strat i price pos =
      (strat.getExitSignal i (strat.updateTrailingStop i price pos),
       strat.updateTrailingStop i price pos) := by
  unfold decideExit
  rw [h1]
  simp only [Bool.false_eq_true, if_false]
  rw [if_neg h2]

/-- C1 (corrected): while a position is open, the generic engine checks
the truthy take-profit condition first and records "Take Profit"; only
when that guard is falsy does it update the trailing stop and test the
stop breach, recording "Stop Loss"; only when neither protective exit
fires can a recorded trade carry the strategy exit signal.  The
take-profit guard is the Python truthiness test, so it requires a
present and nonzero take-profit price that the close has reached. -/
theorem generic_exit_priority (strat : GenStrategy) (close : List ℚ)
    (ts : List ℤ) (st : EngineState) (i : ℕ)
    (hpos : st.position.inPos = true) :
    (tpCheck (strat.getTakeProfitPrice i st.position) (close.getD i 0) = true →
      ∃ tr, (stepGeneric strat close ts st i).trades = st.trades ++ [tr] ∧
        tr.exitReason = "Take Profit") ∧
    (tpCheck (strat.getTakeProfitPrice i st.position) (close.getD i 0) = false →
      close.getD i 0 ≤
        (strat.updateTrailingStop i (close.getD i 0) st.position).stopPrice →
      ∃ tr, (stepGeneric strat close ts st i).trades = st.trades ++ [tr] ∧
        tr.exitReason = "Stop Loss") ∧
    (tpCheck (strat.getTakeProfitPrice i st.position) (close.getD i 0) = false →
      ¬ close.getD i 0 ≤
        (strat.updateTrailingStop i (close.getD i 0) st.position).stopPrice →
      ∀ tr, (stepGeneric strat close ts st i).trades = st.trades ++ [tr] →
        some tr.exitReason =
          strat.getExitSignal i
            (strat.updateTrailingStop i (close.getD i 0) st.position)) := by
  refine ⟨?_, ?_, ?_⟩
  · intro htp
    have hd := decideExit_tp_eq strat i (close.getD i 0) st.position htp
    unfold stepGeneric
    rw [hpos]
    simp only [if_true, hd]
    exact ⟨_, rfl, rfl⟩
  · intro htp hstop
    have hd := decideExit_sl_eq strat i (close.getD i 0) st.position htp hstop
    unfold stepGeneric
    rw [hpos]
    simp only [if_true, hd]
    exact ⟨_, rfl, rfl⟩
  · intro htp hstop tr htr
    have hd := decideExit_sig_eq strat i (close.getD i 0) st.position htp hstop
    unfold stepGeneric at htr
    rw [hpos] at htr
    simp only [if_true, hd] at htr
    rcases hsig : strat.getExitSignal i
        (strat.updateTrailingStop i (close.getD i 0) st.position) with _ | s
    · rw [hsig] at htr
      simp [truthyStr] at htr
    · rw [hsig] at htr
      by_cases hs : s = ""
      · subst hs
        simp [truthyStr] at htr
      · have ht : truthyStr (some s) = true := by simp [truthyStr, hs]
        rw [ht] at htr
        simp only [if_true] at htr
        have h1 := List.append_cancel_left htr
        injection h1 with h2 h3
        rw [← h2]
        rfl

/-- C1 counterexample: with a present take-profit price of 0.0, a close of
5 at or above it and a stop of 10 at or above the close, both protective
conditions of the claim hold, yet the engine records "Stop Loss", because
the Python truthiness guard discards the zero take-profit price. -/
theorem generic_exit_priority_counterexample :
    ((stepGeneric cStratC1 [5] [7] cStC1 0).trades.map Trade.exitReason) =
      ["Stop Loss"] ∧
    cStratC1.getTakeProfitPrice 0 cPosC1 = some 0 ∧
    (0 : ℚ) ≤ 5 ∧ (5 : ℚ) ≤ cPosC1.stopPrice := by
  refine ⟨?_, rfl, by norm_num, by norm_num [cPosC1]⟩
  norm_num [stepGeneric, decideExit, tpCheck, truthyStr, cStratC1, cStC1,
    cPosC1, emptyPos]
  rw [if_neg (show ¬ ("Stop Loss" = "") by decide)]
  rfl

/-- Witness for C1: a reachable nonzero take-profit price records a
"Take Profit" trade. -/
theorem generic_exit_priority_witness :
    ∃ tr, (stepGeneric wStratC1 [5] [7] wStC1 0).trades =
        wStC1.trades ++ [tr] ∧ tr.exitReason = "Take Profit" :=
  (generic_exit_priority wStratC1 [5] [7] wStC1 0 rfl).1 (by rfl)

/-- A NaN-propagating running sum over all-present values stays present. -/
theorem foldl_optAdd_isSome :
    ∀ (l : List (Option ℚ)) (a : ℚ), (∀ x ∈ l, x.isSome = true) →
      (l.foldl optAdd (some a)).isSome = true := by
  intro l
  induction l with
  | nil => intro a _; rfl
  | cons x xs ih =>
      intro a h
      obtain ⟨b, hb⟩ := Option.isSome_iff_exists.mp (h x (List.mem_cons_self x xs))
      rw [List.foldl_cons, hb]
      exact ih (a + b) (fun y hy => h y (List.mem_cons_of_mem x hy))

/-- numpy-style sum of an all-present slice is present. -/
theorem nanSum_isSome (l : List (Option ℚ)) (h : ∀ x ∈ l, x.isSome = true) :
    (nanSum l).isSome = true :=
  foldl_optAdd_isSome l 0 h

/-- The incremental SMA tail has one output per remaining input. -/
theorem smaGo_length (w : ℚ) :
    ∀ (xs os : List (Option ℚ)) (cs : Option ℚ), xs.length ≤ os.length →
      (smaGo w os xs cs).length = xs.length := by
  intro xs
  induction xs with
  | nil =>
      intro os cs _
      cases os <;> rfl
  | cons x xs ih =>
      intro os cs hlen
      cases os with
      | nil => simp at hlen
      | cons o os =>
          unfold smaGo
          simp only [List.length_cons]
          rw [ih os _ (by simpa using hlen)]

/-- Every output of the incremental SMA tail is present when the inputs
and the carried running sum are present. -/
theorem smaGo_mem_isSome (w : ℚ) :
    ∀ (xs os : List (Option ℚ)) (cs : Option ℚ),
      (∀ y ∈ os, y.isSome = true) → (∀ y ∈ xs, y.isSome = true) →
      cs.isSome = true →
      ∀ z ∈ smaGo w os xs cs, z.isSome = true := by
  intro xs
  induction xs with
  | nil =>
      intro os cs _ _ _ z hz
      cases os <;> simp [smaGo] at hz
  | cons x xs ih =>
      intro os cs hos hxs hcs z hz
      cases os with
      | nil => simp [smaGo] at hz
      | cons o os =>
          unfold smaGo at hz
          obtain ⟨cv, hcv⟩ := Option.isSome_iff_exists.mp hcs
          obtain ⟨xv, hxv⟩ := Option.isSome_iff_exists.mp
            (hxs x (List.mem_cons_self x xs))
          obtain ⟨ov, hov⟩ := Option.isSome_iff_exists.mp
            (hos o (List.mem_cons_self o os))
          rcases List.mem_cons.mp hz with hhead | htail
          · subst hhead
            rw [hcv, hxv, hov]
            rfl
          · refine ih os _ (fun y hy => hos y (List.mem_cons_of_mem o hy))
              (fun y hy => hxs y (List.mem_cons_of_mem x hy)) ?_ z htail
            rw [hcv, hxv, hov]
            rfl

/-- The recursive EMA tail has one output per remaining input. -/
theorem emaGo_length (m : ℚ) :
    ∀ (xs : List (Option ℚ)) (prev : Option ℚ),
      (emaGo m xs prev).length = xs.length := by
  intro xs
  induction xs with
  | nil => intro prev; rfl
  | cons x xs ih =>
      intro prev
      unfold emaGo
      simp only [List.length_cons]
      rw [ih]

/-- Every output of the recursive EMA tail is present when the inputs and
the previous output are present. -/
theorem emaGo_mem_isSome (m : ℚ) :
    ∀ (xs : List (Option ℚ)) (prev : Option ℚ),
      (∀ y ∈ xs, y.isSome = true) → prev.isSome = true →
      ∀ z ∈ emaGo m xs prev, z.isSome = true := by
  intro xs
  induction xs with
  | nil => intro prev _ _ z hz; simp [emaGo] at hz
  | cons x xs ih =>
      intro prev hxs hprev z hz
      unfold emaGo at hz
      obtain ⟨pv, hpv⟩ := Option.isSome_iff_exists.mp hprev
      obtain ⟨xv, hxv⟩ := Option.isSome_iff_exists.mp
        (hxs x (List.mem_cons_self x xs))
      rcases List.mem_cons.mp hz with hhead | htail
      · subst hhead
        rw [hpv, hxv]
        rfl
      · refine ih _ (fun y hy => hxs y (List.mem_cons_of_mem x hy)) ?_ z htail
        rw [hpv, hxv]
        rfl

/-- Indexing a list of present values yields a present value. -/
theorem getD_isSome_of_forall (l : List (Option ℚ))
    (h : ∀ y ∈ l, y.isSome = true) (i : ℕ) (hi : i < l.length) :
    (l.getD i none).isSome = true := by
  rw [List.getD_eq_getElem l none hi]
  exact h _ (List.getElem_mem hi)

/-- C7 (corrected): on an input array with no NaN entries and a window
1 <= w <= length, the SMA and the EMA outputs have length equal to the
input, exactly their first w - 1 entries NaN, every entry from index
w - 1 on a present number; recomputation is identical (the embedded
functions are pure, so determinism is definitional). -/
theorem sma_ema_warmup_spec (arr : List ℚ) (w : ℕ) (hw : 1 ≤ w)
    (hl : w ≤ arr.length) :
    (sma_numba (arr.map some) w).length = arr.length ∧
    (∀ i, i < w - 1 → (sma_numba (arr.map some) w).getD i (some 0) = none) ∧
    (∀ i, w - 1 ≤ i → i < arr.length →
      ((sma_numba (arr.map some) w).getD i none).isSome = true) ∧
    (ema_numba (arr.map some) w).length = arr.length ∧
    (∀ i, i < w - 1 → (ema_numba (arr.map some) w).getD i (some 0) = none) ∧
    (∀ i, w - 1 ≤ i → i < arr.length →
      ((ema_numba (arr.map some) w).getD i none).isSome = true) ∧
    sma_numba (arr.map some) w = sma_numba (arr.map some) w ∧
    ema_numba (arr.map some) w = ema_numba (arr.map some) w := by
  have hallsome : ∀ y ∈ arr.map some, y.isSome = true := by
    intro y hy
    rcases List.mem_map.mp hy with ⟨a, _, rfl⟩
    rfl
  have hmaplen : (arr.map some).length = arr.length := List.length_map arr some
  have hguard : ¬ (w = 0 ∨ (arr.map some).length < w) := by
    push_neg
    constructor
    · omega
    · rw [hmaplen]; omega
  have hdroplen : ((arr.map some).drop w).length ≤ (arr.map some).length := by
    rw [List.length_drop]
    omega
  have hcs : (nanSum ((arr.map some).take w)).isSome = true :=
    nanSum_isSome _ (fun y hy => hallsome y (List.take_subset w _ hy))
  have hdropsome : ∀ y ∈ (arr.map some).drop w, y.isSome = true :=
    fun y hy => hallsome y (List.drop_subset w _ hy)
  have hs : sma_numba (arr.map some) w =
      List.replicate (w - 1) none ++
        ((nanSum ((arr.map some).take w)).map (fun v => v / (w : ℚ)) ::
          smaGo (w : ℚ) (arr.map some) ((arr.map some).drop w)
            (nanSum ((arr.map some).take w))) := by
    unfold sma_numba
    rw [if_neg hguard]
  have he : ema_numba (arr.map some) w =
      List.replicate (w - 1) none ++
        ((nanSum ((arr.map some).take w)).map (fun v => v / (w : ℚ)) ::
          emaGo (2 / ((w : ℚ) + 1)) ((arr.map some).drop w)
            ((nanSum ((arr.map some).take w)).map (fun v => v / (w : ℚ)))) := by
    unfold ema_numba
    rw [if_neg hguard]
  have hsgLen : (smaGo (w : ℚ) (arr.map some) ((arr.map some).drop w)
      (nanSum ((arr.map some).take w))).length = arr.length - w := by
    rw [smaGo_length _ _ _ _ hdroplen, List.length_drop, hmaplen]
  have hegLen : (emaGo (2 / ((w : ℚ) + 1)) ((arr.map some).drop w)
      ((nanSum ((arr.map some).take w)).map (fun v => v / (w : ℚ)))).length =
      arr.length - w := by
    rw [emaGo_length, List.length_drop, hmaplen]
  have hheadSome : ((nanSum ((arr.map some).take w)).map
      (fun v => v / (w : ℚ))).isSome = true := by
    rw [Option.isSome_map']
    exact hcs
  have hsL2 : ∀ z ∈ ((nanSum ((arr.map some).take w)).map (fun v => v / (w : ℚ)) ::
      smaGo (w : ℚ) (arr.map some) ((arr.map some).drop w)
        (nanSum ((arr.map some).take w))), z.isSome = true := by
    intro z hz
    rcases List.mem_cons.mp hz with hhead | htail
    · subst hhead
      exact hheadSome
    · exact smaGo_mem_isSome _ _ _ _ hallsome hdropsome hcs z htail
  have heL2 : ∀ z ∈ ((nanSum ((arr.map some).take w)).map (fun v => v / (w : ℚ)) ::
      emaGo (2 / ((w : ℚ) + 1)) ((arr.map some).drop w)
        ((nanSum ((arr.map some).take w)).map (fun v => v / (w : ℚ)))),
      z.isSome = true := by
    intro z hz
    rcases List.mem_cons.mp hz with hhead | htail
    · subst hhead
      exact hheadSome
    · exact emaGo_mem_isSome _ _ _ hdropsome hheadSome z htail
  refine ⟨?_, ?_, ?_, ?_, ?_, ?_, rfl, rfl⟩
  · rw [hs, List.length_append, List.length_replicate, List.length_cons, hsgLen]
    omega
  · intro i hi
    rw [hs, List.getD_append _ _ _ _ (by rw [List.length_replicate]; omega),
      List.getD_eq_getElem _ _ (by rw [List.length_replicate]; omega)]
    simp
  · intro i h1 h2
    rw [hs, List.getD_append_right _ _ _ _ (by rw [List.length_replicate]; omega)]
    refine getD_isSome_of_forall _ hsL2 _ ?_
    rw [List.length_cons, hsgLen, List.length_replicate]
    omega
  · rw [he, List.length_append, List.length_replicate, List.length_cons, hegLen]
    omega
  · intro i hi
    rw [he, List.getD_append _ _ _ _ (by rw [List.length_replicate]; omega),
      List.getD_eq_getElem _ _ (by rw [List.length_replicate]; omega)]
    simp
  · intro i h1 h2
    rw [he, List.getD_append_right _ _ _ _ (by rw [List.length_replicate]; omega)]
    refine getD_isSome_of_forall _ heL2 _ ?_
    rw [List.length_cons, hegLen, List.length_replicate]
    omega

/-- C7 counterexample: on the one-element input holding NaN with window 1
(length equals the window), the entry at index w - 1 = 0 of both the SMA
and the EMA is NaN, not a defined number; such NaN-bearing inputs occur
in the source, for example the MACD signal line is the EMA of an array
with a NaN prefix. -/
theorem sma_ema_nan_counterexample :
    (sma_numba [none] 1).getD 0 (some 0) = none ∧
    (ema_numba [none] 1).getD 0 (some 0) = none ∧
    ([(none : Option ℚ)]).length = 1 :=
  ⟨rfl, rfl, rfl⟩

/-- Witness for C7 on the NaN-free input [1, 2] with window 2. -/
theorem sma_ema_warmup_spec_witness :
    ((sma_numba ([(1 : ℚ), 2].map some) 2).getD 0 (some 0) = none) ∧
    ((sma_numba ([(1 : ℚ), 2].map some) 2).getD 1 none).isSome = true :=
  ⟨(sma_ema_warmup_spec [1, 2] 2 (by norm_num) (by norm_num)).2.1 0
      (by norm_num),
   (sma_ema_warmup_spec [1, 2] 2 (by norm_num) (by norm_num)).2.2.1 1
      (by norm_num) (by norm_num)⟩
